import Mathlib

/-!
Verification development for the Mathematics Olympiad Problems bot.

The repository has two near-duplicate variants of the same program:
  * src/main.py      — polling deployment (with user tracking in users.txt)
  * src/api/index.py — webhook deployment for Vercel (user tracking removed)

This file gives a shallow embedding of the logic of both variants.
Strings are modelled as lists of characters (`Str`), the users.txt file as an
optional list of lines (`Store`, `none` = file absent), and the problems
directory tree as a map from category token to an optional entry list (`Fs`,
`none` = no directory for that token).
-/

/-- Strings of the embedded program are lists of characters. -/
abbrev Str := List Char

/-- The users.txt file: absent (`none`) or a list of lines (newlines stripped). -/
abbrev Store := Option (List Str)

/-- The problems directory tree: token ↦ directory entry names, `none` when the
directory for that token does not exist (`os.path.isdir` / `os.path.exists` false). -/
abbrev Fs := Str → Option (List Str)

/-- Python exceptions the embedded store code can raise and that are not caught
inside `log_user` itself (`int(...)` raising on a non-numeric line). -/
inductive PyErr where
  | valueError
deriving DecidableEq

/-- A reply produced by a handler: a text message (`reply_text`) or a photo with
a caption (`reply_photo`). -/
inductive Resp where
  | text : Str → Resp
  | photo : Str → Str → Resp
deriving DecidableEq

/- ## Numeric rendering and parsing (f-string of an int / Python `int(...)`) -/

/-- The character for a decimal digit value. -/
def digitChar (d : Nat) : Char := Char.ofNat (48 + d)

/-- Decimal rendering of a natural number, as Python's str() produces it. -/
def natRepr (n : Nat) : Str :=
  if n = 0 then ['0'] else (Nat.digits 10 n).reverse.map digitChar

/-- Decimal rendering of an integer (`f"{user_id}"`). -/
def intRepr (i : Int) : Str :=
  if i < 0 then '-' :: natRepr i.natAbs else natRepr i.natAbs

/-- Numeric value of a digit character. -/
def charVal (c : Char) : Nat := c.toNat - 48

/-- Parse an unsigned decimal numeral; `none` when empty or not all digits. -/
def parseDigits (s : Str) : Option Nat :=
  if s = [] then none
  else if s.all Char.isDigit then
    some (s.foldl (fun a c => 10 * a + charVal c) 0)
  else none

/-- Model of Python `int(s)` on a whitespace-free string: an optional sign
followed by decimal digits; `none` models a ValueError. -/
def parsePyInt (s : Str) : Option Int :=
  if s.head? = some '-' then (parseDigits (s.drop 1)).map (fun n : Nat => -(n : Int))
  else if s.head? = some '+' then (parseDigits (s.drop 1)).map (fun n : Nat => (n : Int))
  else (parseDigits s).map (fun n : Nat => (n : Int))

/-- Model of the set comprehension in log_user:
`{int(line.strip()) for line in f}` — parses every line, raising (`none`)
as soon as one line is not a numeral. -/
def parseAllIds : List Str → Option (List Int)
  | [] => some []
  | l :: ls =>
    match parsePyInt l, parseAllIds ls with
    | some v, some vs => some (v :: vs)
    | _, _ => none

/- ## Identity store (src/main.py lines 31-48) -/

/-- src/main.py `log_user`: read users.txt, parse every line, and append the id
when it is not already known; a missing file (FileNotFoundError) is caught and
the file is created with the single id; an unparsable line raises ValueError,
which `log_user` does not catch. -/
def log_user (u : Int) (st : Store) : Except PyErr Store :=
  match st with
  | none => .ok (some [intRepr u])
  | some lines =>
    match parseAllIds lines with
    | none => .error .valueError
    | some known =>
      if u ∈ known then .ok (some lines)
      else .ok (some (lines ++ [intRepr u]))

/-- The lines of the store ([] when the file is absent). -/
def linesOf : Store → List Str
  | none => []
  | some ls => ls

/-- The identities present in the store (parsable lines only). -/
def storeIds (st : Store) : List Int := (linesOf st).filterMap parsePyInt

/-- Number of lines of the store that record the identity u. -/
def countIn (u : Int) (st : Store) : Nat := (storeIds st).count u

/-- Sequential (serialized) execution of log_user calls: each call runs to
completion before the next starts, as under python-telegram-bot's default
sequential update processing. -/
def seqLog : List Int → Store → Except PyErr Store
  | [], st => .ok st
  | u :: rest, st =>
    match log_user u st with
    | .error e => .error e
    | .ok st1 => seqLog rest st1

/- ## Command-token derivation (src/main.py 79-81, src/api/index.py 55-57) -/

/-- The token derivation of send_problem:
`update.message.text.split(' ')[0]` (= longest prefix without a space), then
`.lstrip('/')` (= drop all leading slashes), then `.split('@')[0]`
(= longest prefix without an at-sign).  Note: the source applies no
case-folding. -/
def deriveToken (t : Str) : Str :=
  ((t.takeWhile (fun c => c != ' ')).dropWhile (fun c => c == '/')).takeWhile
    (fun c => c != '@')

/- ## Category catalog and random selection -/

/-- Python `f.startswith('.')`. -/
def pyStartsDot : Str → Bool
  | '.' :: _ => true
  | _ => false

/-- The visible entries of a directory listing:
`[f for f in os.listdir(exam_folder) if not f.startswith('.')]`. -/
def visibleOf (entries : List Str) : List Str :=
  entries.filter (fun f => !pyStartsDot f)

/-- Model of `random.choice(seq)` = `seq[i]` for a random index `i < len(seq)`;
the random draw is modelled by the parameter r, reduced mod the length. -/
def random_choice (l : List Str) (r : Nat) : Str := l.getD (r % l.length) []

/-- `os.path.join(os.path.join("problems", exam_type), file)`. -/
def probPath (tok f : Str) : Str := "problems/".data ++ tok ++ '/' :: f

/-- Python `str.upper()` (ASCII). -/
def pyUpper (s : Str) : Str := s.map Char.toUpper

/-- The three outcomes of category resolution described by the spec, extracted
from the inline branch structure of send_problem. -/
inductive CategoryState where
  | missing : CategoryState
  | empty : CategoryState
  | ready : List Str → CategoryState
deriving DecidableEq

/-- Category resolution as send_problem performs it inline
(src/main.py 88-97): directory absent ↦ missing; present with no visible
entry ↦ empty; otherwise ready with the visible entries. -/
def resolveCategory (fs : Fs) (tok : Str) : CategoryState :=
  match fs tok with
  | none => .missing
  | some entries =>
    let files := visibleOf entries
    if files = [] then .empty else .ready files

/- ## Handler messages -/

/-- src/main.py line 90. -/
def missingMsgM (tok : Str) : Str :=
  "Sorry, I couldn".data ++ '\'' :: "t find any problems for ".data ++
    pyUpper tok ++ ".".data

/-- src/main.py line 96. -/
def emptyMsgM (tok : Str) : Str :=
  "Sorry, the problem set for ".data ++ pyUpper tok ++
    " is currently empty.".data

/-- src/main.py line 105. -/
def captionM (tok : Str) : Str :=
  "Here is your ".data ++ pyUpper tok ++ " problem. Good luck!".data

/-- src/main.py line 110. -/
def genericErrM : Str :=
  "An unexpected error occurred while fetching a problem. Please try again later.".data

/-- src/api/index.py line 62 (note: raw token, not upper-cased). -/
def setupErrIdx (tok : Str) : Str :=
  "Setup Error: The folder ".data ++ '\'' :: tok ++ '\'' ::
    " does not exist.".data

/-- src/api/index.py line 68. -/
def emptyMsgIdx (tok : Str) : Str :=
  "No problems found in ".data ++ pyUpper tok ++ ".".data

/-- src/api/index.py line 76. -/
def captionIdx (tok : Str) : Str :=
  "Here is your ".data ++ pyUpper tok ++ " problem.".data

/-- src/api/index.py line 81. -/
def genericErrIdx : Str := "An error occurred. Please try again.".data

/-- src/main.py lines 59-66. -/
def welcomeM : Str :=
  ("Welcome to the Mathematics Olympiad Problems Bot!\n\nI provide past problems from various prestigious math competitions. Just use one of the commands below to get a random problem image.\n\n**Available Commands:**\n/rmo   - Regional Mathematics Olympiad\n/inmo  - Indian National Mathematics Olympiad\n").data

/-- src/main.py line 122. -/
def countMsg (n : Nat) : Str := "Total unique users: ".data ++ natRepr n

/-- src/main.py line 124. -/
def noUsersMsg : Str := "No users have been recorded yet.".data

/-- src/api/index.py line 86. -/
def vercelMsg : Str :=
  "User counting is disabled on Vercel (Read-only filesystem).".data

/- ## Handlers -/

/-- The body of the try block of src/main.py send_problem (lines 86-110):
category resolution, random selection, and the reply; an unreadable artifact
(`open` raising inside the try) is caught by the `except` and turned into the
generic error text.  `unr path = true` models `open(path)` raising. -/
def sendProblemTryM (tok : Str) (fs : Fs) (unr : Str → Bool) (r : Nat) : Resp :=
  match fs tok with
  | none => .text (missingMsgM tok)
  | some entries =>
    let files := visibleOf entries
    if files = [] then .text (emptyMsgM tok)
    else
      let path := probPath tok (random_choice files r)
      if unr path then .text genericErrM
      else .photo path (captionM tok)

/-- src/main.py send_problem (lines 70-110).  `log_user` is invoked before the
try block (line 75), so an exception it raises propagates out of the handler;
the token derivation (79-81) is also outside the try but cannot raise. -/
def send_problem_main (text : Str) (uid : Int) (st : Store) (fs : Fs)
    (unr : Str → Bool) (r : Nat) : Except PyErr (Resp × Store) :=
  match log_user uid st with
  | .error e => .error e
  | .ok st1 => .ok (sendProblemTryM (deriveToken text) fs unr r, st1)

/-- src/api/index.py send_problem (lines 51-81): returns silently when the
message or its text is missing or empty; the whole body is inside the try, so
every exception is caught and converted to the generic error text. -/
def sendProblemTryIdx (tok : Str) (fs : Fs) (unr : Str → Bool) (r : Nat) : Resp :=
  match fs tok with
  | none => .text (setupErrIdx tok)
  | some entries =>
    let files := visibleOf entries
    if files = [] then .text (emptyMsgIdx tok)
    else
      let path := probPath tok (random_choice files r)
      if unr path then .text genericErrIdx
      else .photo path (captionIdx tok)

/-- src/api/index.py send_problem wrapper: `if not update.message or not
update.message.text: return` (line 52), then the try body. -/
def send_problem_index (text : Option Str) (fs : Fs) (unr : Str → Bool)
    (r : Nat) : Option Resp :=
  match text with
  | none => none
  | some t => if t = [] then none else some (sendProblemTryIdx (deriveToken t) fs unr r)

/-- src/main.py start (lines 52-67): records the identity (line 57, before the
reply) then sends the welcome text. -/
def start_main (uid : Int) (st : Store) : Except PyErr (Resp × Store) :=
  match log_user uid st with
  | .error e => .error e
  | .ok st1 => .ok (.text welcomeM, st1)

/-- src/main.py user_count (lines 113-127): the admin gets the line count of
users.txt ("No users have been recorded yet." when the file is absent,
FileNotFoundError branch); everyone else gets no reply at all.  The store is
never written (the handler does not call log_user). -/
def user_count_main (uid admin : Int) (st : Store) : Option Resp × Store :=
  (if uid = admin then
    some (.text (match st with
      | some lines => countMsg lines.length
      | none => noUsersMsg))
   else none, st)

/-- src/api/index.py user_count (lines 83-86): the admin gets a fixed notice,
everyone else gets no reply. -/
def user_count_index (uid admin : Int) : Option Resp :=
  if uid = admin then some (.text vercelMsg) else none

/- ## Startup configuration -/

/-- Outcome of the polling variant's module initialization. -/
inductive MainBoot where
  | exited : MainBoot
  | crashed : MainBoot
  | running : Int → MainBoot
deriving DecidableEq

/-- src/main.py lines 17-23: `os.environ[..]` raises KeyError when either
variable is absent — caught, logged, `exit()`; `int(ADMIN_ID)` raises an
uncaught ValueError when the value is not a numeral (the process dies with a
traceback instead of the logged exit). -/
def mainBoot (tokEnv admEnv : Option Str) : MainBoot :=
  match tokEnv, admEnv with
  | some _, some a =>
    match parsePyInt a with
    | some n => .running n
    | none => .crashed
  | _, _ => .exited

/-- Outcome of the webhook variant's module initialization. -/
inductive WebBoot where
  | terminated : WebBoot
  | running : Bool → Int → WebBoot
deriving DecidableEq

/-- Python falsiness of an optional env string (None or ""). -/
def pyFalsy : Option Str → Bool
  | none => true
  | some s => s.isEmpty

/-- src/api/index.py lines 26-29:
`ADMIN_ID = int(ADMIN_ID_RAW) if ADMIN_ID_RAW else 0`, with the ValueError of
`int` caught and replaced by 0. -/
def webhookAdminId (admEnv : Option Str) : Int :=
  match admEnv with
  | none => 0
  | some s => if s.isEmpty then 0 else (parsePyInt s).getD 0

/-- src/api/index.py lines 19-29: the module always finishes initialization
(there is no exit call); it logs a critical message when a variable is falsy
and continues with the computed admin id. -/
def webBoot (tokEnv admEnv : Option Str) : WebBoot :=
  .running (pyFalsy tokEnv || pyFalsy admEnv) (webhookAdminId admEnv)

/- ## Interleaving machine for concurrent log_user calls

log_user is a read-then-conditionally-write sequence with no lock.  Each
in-flight call is modelled as a thread with two atomic steps: the read of
users.txt (taking a snapshot of the parsed ids) and the conditional write
(create-on-missing via mode "w", or append via mode "a").  The file content is
abstracted to the list of recorded ids. -/

/-- Progress of one in-flight log_user call. -/
inductive Stage where
  | ready : Stage
  | readDone : Option (List Int) → Stage
  | written : Stage
deriving DecidableEq

/-- One in-flight log_user call: the identity it records and its progress. -/
structure ThreadSt where
  tid : Int
  stage : Stage
deriving DecidableEq

/-- The shared file plus the in-flight calls. -/
structure MachineSt where
  store : Option (List Int)
  threads : List ThreadSt
deriving DecidableEq

/-- The write phase of log_user, acting on the snapshot taken in the read
phase: a missing-file snapshot leads to a truncating create with the single
id (mode "w"); otherwise the id is appended to the current file iff it was
absent from the snapshot (mode "a" creates the file when missing). -/
def writeStep (u : Int) (snap : Option (List Int)) (s : Option (List Int)) :
    Option (List Int) :=
  match snap with
  | none => some [u]
  | some known =>
    if u ∈ known then s
    else
      match s with
      | none => some [u]
      | some cur => some (cur ++ [u])

/-- Advance thread i by one atomic step. -/
def stepThread (m : MachineSt) (i : Nat) : MachineSt :=
  match m.threads.get? i with
  | none => m
  | some t =>
    match t.stage with
    | .ready => ⟨m.store, m.threads.set i ⟨t.tid, .readDone m.store⟩⟩
    | .readDone snap => ⟨writeStep t.tid snap m.store, m.threads.set i ⟨t.tid, .written⟩⟩
    | .written => m

/-- Run a schedule (a list of thread indices) from a machine state. -/
def runSched (sched : List Nat) (m : MachineSt) : MachineSt :=
  sched.foldl stepThread m

/-- Start state: every call still has both steps to run. -/
def initThreads (ids : List Int) : List ThreadSt :=
  ids.map (fun u => ⟨u, .ready⟩)

/-- Every in-flight call has completed. -/
def allDone (m : MachineSt) : Bool :=
  m.threads.all (fun t => t.stage == Stage.written)

/-- Number of entries the shared file holds. -/
def machineEntries (m : MachineSt) : List Int := m.store.getD []

/- ## Numeral roundtrip lemmas -/

lemma charVal_digitChar {d : Nat} (h : d < 10) : charVal (digitChar d) = d := by
  interval_cases d <;> decide

lemma isDigit_digitChar {d : Nat} (h : d < 10) : (digitChar d).isDigit = true := by
  interval_cases d <;> decide

lemma foldl_map_digitChar (l : List Nat) (a : Nat) (h : ∀ d ∈ l, d < 10) :
    (l.map digitChar).foldl (fun a c => 10 * a + charVal c) a =
      l.foldl (fun a d => 10 * a + d) a := by
  induction l generalizing a with
  | nil => rfl
  | cons d t ih =>
    simp only [List.map_cons, List.foldl_cons]
    rw [charVal_digitChar (h d (by simp))]
    exact ih _ (fun x hx => h x (by simp [hx]))

lemma foldl_mul_add (l : List Nat) (a : Nat) :
    l.foldl (fun a d => 10 * a + d) a =
      a * 10 ^ l.length + Nat.ofDigits 10 l.reverse := by
  induction l generalizing a with
  | nil => simp
  | cons d t ih =>
    simp only [List.foldl_cons, List.reverse_cons, List.length_cons]
    rw [ih (10 * a + d), Nat.ofDigits_append, Nat.ofDigits_singleton,
      List.length_reverse]
    ring

lemma natRepr_ne_nil (n : Nat) : natRepr n ≠ [] := by
  unfold natRepr
  by_cases h0 : n = 0
  · simp [h0]
  · rw [if_neg h0]
    simp [Nat.digits_ne_nil_iff_ne_zero.mpr h0]

lemma natRepr_all_digits (n : Nat) : (natRepr n).all Char.isDigit = true := by
  unfold natRepr
  by_cases h0 : n = 0
  · simp [h0]
  · rw [if_neg h0, List.all_eq_true]
    intro c hc
    obtain ⟨d, hd, rfl⟩ := List.mem_map.mp hc
    exact isDigit_digitChar (Nat.digits_lt_base (by norm_num) (List.mem_reverse.mp hd))

lemma parseDigits_natRepr (n : Nat) : parseDigits (natRepr n) = some n := by
  by_cases h0 : n = 0
  · subst h0; decide
  · have hlt : ∀ d ∈ Nat.digits 10 n, d < 10 :=
      fun d hd => Nat.digits_lt_base (by norm_num) hd
    unfold parseDigits
    rw [if_neg (natRepr_ne_nil n), if_pos (natRepr_all_digits n)]
    unfold natRepr
    rw [if_neg h0]
    rw [foldl_map_digitChar _ _ (fun d hd => hlt d (List.mem_reverse.mp hd))]
    rw [foldl_mul_add, List.reverse_reverse, Nat.ofDigits_digits]
    simp

lemma head_ne_of_all_digits {s : Str} (h : s.all Char.isDigit = true)
    {c : Char} (hc : Char.isDigit c = false) : s.head? ≠ some c := by
  cases s with
  | nil => simp
  | cons a t =>
    intro hh
    rw [List.head?_cons, Option.some_inj] at hh
    rw [List.all_cons, Bool.and_eq_true] at h
    rw [hh] at h
    rw [h.1] at hc
    exact absurd hc (by simp)

lemma parsePyInt_natRepr (n : Nat) : parsePyInt (natRepr n) = some (n : Int) := by
  unfold parsePyInt
  rw [if_neg (head_ne_of_all_digits (natRepr_all_digits n) (by decide)),
    if_neg (head_ne_of_all_digits (natRepr_all_digits n) (by decide)),
    parseDigits_natRepr]
  rfl

lemma parsePyInt_intRepr (i : Int) : parsePyInt (intRepr i) = some i := by
  unfold intRepr
  by_cases hi : i < 0
  · rw [if_pos hi]
    unfold parsePyInt
    rw [if_pos (by rw [List.head?_cons])]
    rw [List.drop_one, List.tail_cons, parseDigits_natRepr]
    rw [Option.map_some']
    congr 1
    omega
  · rw [if_neg hi, parsePyInt_natRepr]
    congr 1
    omega

/- ## parseAllIds lemmas -/

lemma parseAllIds_filterMap :
    ∀ {lines : List Str} {ks : List Int}, parseAllIds lines = some ks →
      lines.filterMap parsePyInt = ks := by
  intro lines
  induction lines with
  | nil =>
    intro ks h
    simp only [parseAllIds, Option.some_inj] at h
    simp [← h]
  | cons l ls ih =>
    intro ks h
    cases hl : parsePyInt l with
    | none => simp [parseAllIds, hl] at h
    | some v =>
      cases hls : parseAllIds ls with
      | none => simp [parseAllIds, hl, hls] at h
      | some vs =>
        simp only [parseAllIds, hl, hls, Option.some_inj] at h
        simp [List.filterMap_cons, hl, ih hls, ← h]

lemma parseAllIds_length :
    ∀ {lines : List Str} {ks : List Int}, parseAllIds lines = some ks →
      lines.length = ks.length := by
  intro lines
  induction lines with
  | nil =>
    intro ks h
    simp only [parseAllIds, Option.some_inj] at h
    simp [← h]
  | cons l ls ih =>
    intro ks h
    cases hl : parsePyInt l with
    | none => simp [parseAllIds, hl] at h
    | some v =>
      cases hls : parseAllIds ls with
      | none => simp [parseAllIds, hl, hls] at h
      | some vs =>
        simp only [parseAllIds, hl, hls, Option.some_inj] at h
        simp [← h, ih hls]

lemma parseAllIds_append_one {x : Str} {v : Int} (hx : parsePyInt x = some v) :
    ∀ {lines : List Str} {ks : List Int}, parseAllIds lines = some ks →
      parseAllIds (lines ++ [x]) = some (ks ++ [v]) := by
  intro lines
  induction lines with
  | nil =>
    intro ks h
    simp only [parseAllIds, Option.some_inj] at h
    simp [parseAllIds, hx, ← h]
  | cons l ls ih =>
    intro ks h
    cases hl : parsePyInt l with
    | none => simp [parseAllIds, hl] at h
    | some v2 =>
      cases hls : parseAllIds ls with
      | none => simp [parseAllIds, hl, hls] at h
      | some vs =>
        simp only [parseAllIds, hl, hls, Option.some_inj] at h
        simp [parseAllIds, hl, ih hls, ← h]

/- ## log_user lemmas -/

lemma log_user_none (u : Int) : log_user u none = .ok (some [intRepr u]) := rfl

lemma log_user_mem {u : Int} {st st1 : Store} (h : log_user u st = .ok st1) :
    u ∈ storeIds st1 := by
  cases st with
  | none =>
    simp only [log_user, Except.ok.injEq] at h
    rw [← h]
    simp [storeIds, linesOf, List.filterMap_cons, parsePyInt_intRepr]
  | some lines =>
    cases hp : parseAllIds lines with
    | none => simp [log_user, hp] at h
    | some known =>
      by_cases hu : u ∈ known
      · simp only [log_user, hp, if_pos hu, Except.ok.injEq] at h
        rw [← h]
        simpa [storeIds, linesOf, parseAllIds_filterMap hp] using hu
      · simp only [log_user, hp, if_neg hu, Except.ok.injEq] at h
        rw [← h]
        simp [storeIds, linesOf, List.filterMap_append, parseAllIds_filterMap hp,
          List.filterMap_cons, parsePyInt_intRepr]

lemma log_user_ok_parse {u : Int} {lines : List Str} {st1 : Store}
    (h : log_user u (some lines) = .ok st1) :
    ∃ known, parseAllIds lines = some known := by
  cases hp : parseAllIds lines with
  | none => simp [log_user, hp] at h
  | some known => exact ⟨known, rfl⟩

/- ## takeWhile / dropWhile helpers for the token derivation -/

lemma takeWhile_eq_self {p : Char → Bool} :
    ∀ {l : Str}, (∀ x ∈ l, p x = true) → l.takeWhile p = l := by
  intro l
  induction l with
  | nil => intro _; rfl
  | cons c t ih =>
    intro h
    rw [List.takeWhile_cons, h c (by simp)]
    simp [ih (fun x hx => h x (by simp [hx]))]

lemma takeWhile_append_cons {p : Char → Bool} {c : Char} (hc : p c = false) :
    ∀ (l1 l2 : Str), (∀ x ∈ l1, p x = true) →
      (l1 ++ c :: l2).takeWhile p = l1 := by
  intro l1
  induction l1 with
  | nil =>
    intro l2 _
    simp [List.takeWhile_cons, hc]
  | cons a t ih =>
    intro l2 h
    rw [List.cons_append, List.takeWhile_cons, h a (by simp)]
    simp [ih l2 (fun x hx => h x (by simp [hx]))]

lemma dropWhile_eq_self_of_head {p : Char → Bool} {l : Str}
    (h : ∀ c, l.head? = some c → p c = false) : l.dropWhile p = l := by
  cases l with
  | nil => rfl
  | cons c t =>
    rw [List.dropWhile_cons, h c rfl]
    simp

/- ## Random selection helper -/

lemma random_choice_mem {l : List Str} (h : l ≠ []) (r : Nat) :
    random_choice l r ∈ l := by
  have hlen : 0 < l.length := List.length_pos.mpr h
  have hlt : r % l.length < l.length := Nat.mod_lt r hlen
  rw [random_choice, List.getD_eq_getElem?_getD, List.getElem?_eq_getElem hlt]
  exact List.getElem_mem hlt

/- ## Distinguishing the fixed message prefixes -/

lemma append_ne_append_of_take {n : Nat} {a b x y : Str}
    (ha : n ≤ a.length) (hb : n ≤ b.length) (hne : a.take n ≠ b.take n) :
    a ++ x ≠ b ++ y := by
  intro h
  apply hne
  have := congrArg (List.take n) h
  rwa [List.take_append_of_le_length ha, List.take_append_of_le_length hb] at this

/- ## seqLog invariant -/

lemma seqLog_ok :
    ∀ (ids : List Int) (lines : List Str) (ks : List Int),
      parseAllIds lines = some ks → ks.Nodup →
      ∃ lines2 ks2, seqLog ids (some lines) = .ok (some lines2) ∧
        parseAllIds lines2 = some ks2 ∧ ks2.Nodup ∧
        (∀ v, v ∈ ks2 ↔ v ∈ ks ∨ v ∈ ids) ∧
        lines2.length = ks2.length := by
  intro ids
  induction ids with
  | nil =>
    intro lines ks hp hnd
    exact ⟨lines, ks, rfl, hp, hnd, by simp, parseAllIds_length hp⟩
  | cons u rest ih =>
    intro lines ks hp hnd
    by_cases hu : u ∈ ks
    · have hstep : seqLog (u :: rest) (some lines) = seqLog rest (some lines) := by
        simp [seqLog, log_user, hp, if_pos hu]
      obtain ⟨lines2, ks2, hrun, hp2, hnd2, hmem, hlen⟩ := ih lines ks hp hnd
      refine ⟨lines2, ks2, by rw [hstep]; exact hrun, hp2, hnd2, ?_, hlen⟩
      intro v
      rw [hmem v]
      constructor
      · rintro (hv | hv)
        · exact Or.inl hv
        · exact Or.inr (by simp [hv])
      · rintro (hv | hv)
        · exact Or.inl hv
        · rcases List.mem_cons.mp hv with hv | hv
          · exact Or.inl (hv ▸ hu)
          · exact Or.inr hv
    · have hp2 : parseAllIds (lines ++ [intRepr u]) = some (ks ++ [u]) :=
        parseAllIds_append_one (parsePyInt_intRepr u) hp
      have hnd2 : (ks ++ [u]).Nodup := by
        rw [List.nodup_append]
        exact ⟨hnd, List.nodup_singleton u, by simpa using hu⟩
      have hstep : seqLog (u :: rest) (some lines) =
          seqLog rest (some (lines ++ [intRepr u])) := by
        simp [seqLog, log_user, hp, if_neg hu]
      obtain ⟨lines2, ks2, hrun, hp3, hnd3, hmem, hlen⟩ :=
        ih (lines ++ [intRepr u]) (ks ++ [u]) hp2 hnd2
      refine ⟨lines2, ks2, by rw [hstep]; exact hrun, hp3, hnd3, ?_, hlen⟩
      intro v
      rw [hmem v]
      constructor
      · rintro (hv | hv)
        · rcases List.mem_append.mp hv with hv | hv
          · exact Or.inl hv
          · exact Or.inr (by simp [List.mem_singleton.mp hv])
        · exact Or.inr (by simp [hv])
      · rintro (hv | hv)
        · exact Or.inl (List.mem_append.mpr (Or.inl hv))
        · rcases List.mem_cons.mp hv with hv | hv
          · exact Or.inl (List.mem_append.mpr (Or.inr (by simp [hv])))
          · exact Or.inr hv

/- ## Claim C1 — command-token derivation -/

/-- C1 counterexample: the claim requires the derived token to be case-folded
to lowercase, with "/RMO" yielding "rmo"; the code derives "RMO" (the token
derivation of send_problem applies no lowercasing). -/
theorem C1_no_casefold_cex :
    deriveToken "/RMO".data = "RMO".data ∧ "RMO".data ≠ "rmo".data := by
  constructor
  · decide
  · decide

/-- C1 (amended): the derived command token equals the raw text's first
space-separated token with all leading command markers stripped and everything
from the first routing-suffix delimiter dropped, with the original case
preserved (no case-folding): "/inmo@ExampleBot" yields "inmo" and "/RMO"
yields "RMO". -/
theorem C1_token_derivation (tok sfx rest : Str)
    (h1 : ' ' ∉ tok) (h2 : '@' ∉ tok) (h3 : tok.head? ≠ some '/')
    (h4 : ' ' ∉ sfx) :
    deriveToken ('/' :: tok) = tok ∧
    deriveToken ('/' :: tok ++ '@' :: sfx) = tok ∧
    deriveToken ('/' :: tok ++ '@' :: sfx ++ ' ' :: rest) = tok := by
  have hts : ∀ x ∈ tok, (x != ' ') = true := by
    intro x hx
    simp only [bne_iff_ne, ne_eq]
    intro he
    exact h1 (he ▸ hx)
  have hta : ∀ x ∈ tok, (x != '@') = true := by
    intro x hx
    simp only [bne_iff_ne, ne_eq]
    intro he
    exact h2 (he ▸ hx)
  have hhead : ∀ c, tok.head? = some c → (c == '/') = false := by
    intro c hc
    simp only [beq_eq_false_iff_ne, ne_eq]
    intro he
    exact h3 (by rw [hc, he])
  have hall : ∀ x ∈ ('/' :: (tok ++ '@' :: sfx)), (x != ' ') = true := by
    intro x hx
    have hx2 : x = '/' ∨ x ∈ tok ∨ x = '@' ∨ x ∈ sfx := by
      simpa using hx
    rcases hx2 with rfl | hx2 | rfl | hx2
    · decide
    · exact hts x hx2
    · decide
    · simp only [bne_iff_ne, ne_eq]
      intro he
      exact h4 (he ▸ hx2)
  have hhead2 : ∀ c, (tok ++ '@' :: sfx).head? = some c → (c == '/') = false := by
    intro c hc
    cases tok with
    | nil =>
      simp only [List.nil_append, List.head?_cons, Option.some_inj] at hc
      rw [← hc]
      decide
    | cons a t =>
      simp only [List.cons_append, List.head?_cons, Option.some_inj] at hc
      rw [← hc]
      exact hhead a rfl
  have cont : (('/' :: (tok ++ '@' :: sfx)).dropWhile (fun c => c == '/')).takeWhile
      (fun c => c != '@') = tok := by
    rw [List.dropWhile_cons_of_pos (by decide), dropWhile_eq_self_of_head hhead2]
    exact takeWhile_append_cons (by decide) tok sfx hta
  refine ⟨?_, ?_, ?_⟩
  · unfold deriveToken
    rw [List.takeWhile_cons_of_pos (by decide), takeWhile_eq_self hts,
      List.dropWhile_cons_of_pos (by decide), dropWhile_eq_self_of_head hhead]
    exact takeWhile_eq_self hta
  · unfold deriveToken
    rw [List.cons_append, takeWhile_eq_self hall]
    exact cont
  · unfold deriveToken
    rw [show '/' :: tok ++ '@' :: sfx ++ ' ' :: rest =
        ('/' :: (tok ++ '@' :: sfx)) ++ ' ' :: rest by simp]
    rw [takeWhile_append_cons (by decide) _ rest hall]
    exact cont

/-- C1 witness: the two concrete normalizations of the amended claim. -/
theorem C1_token_derivation_witness :
    deriveToken "/RMO".data = "RMO".data ∧
    deriveToken "/inmo@ExampleBot".data = "inmo".data := by
  constructor
  · rw [show ("/RMO".data : Str) = '/' :: "RMO".data by decide]
    exact (C1_token_derivation "RMO".data [] []
      (by decide) (by decide) (by decide) (by decide)).1
  · rw [show ("/inmo@ExampleBot".data : Str) =
      '/' :: "inmo".data ++ '@' :: "ExampleBot".data by decide]
    exact (C1_token_derivation "inmo".data "ExampleBot".data []
      (by decide) (by decide) (by decide) (by decide)).2.1

/- ## Claim C3 — idempotent identity recording -/

/-- C3: for every identity u and store state, a second log_user call with u
leaves the store exactly as the first call left it, and (provided the store
recorded u at most once to begin with) the store afterwards records u exactly
once; the admin count query then reports the line count of that state. -/
theorem C3_log_user_idempotent (u adm : Int) (s s1 : Store)
    (h : log_user u s = .ok s1) (hc : countIn u s ≤ 1) :
    log_user u s1 = .ok s1 ∧ countIn u s1 = 1 ∧
    ∃ lines1, s1 = some lines1 ∧
      (user_count_main adm adm s1).fst = some (.text (countMsg lines1.length)) := by
  cases s with
  | none =>
    simp only [log_user, Except.ok.injEq] at h
    rw [← h]
    refine ⟨?_, ?_, [intRepr u], rfl, ?_⟩
    · simp [log_user, parseAllIds, parsePyInt_intRepr]
    · simp [countIn, storeIds, linesOf, List.filterMap_cons, parsePyInt_intRepr]
    · simp [user_count_main]
  | some lines =>
    cases hp : parseAllIds lines with
    | none => simp [log_user, hp] at h
    | some known =>
      by_cases hu : u ∈ known
      · simp only [log_user, hp, if_pos hu, Except.ok.injEq] at h
        rw [← h]
        refine ⟨by simp [log_user, hp, hu], ?_, lines, rfl, by simp [user_count_main]⟩
        have hcount : countIn u (some lines) = (List.count u known) := by
          simp [countIn, storeIds, linesOf, parseAllIds_filterMap hp]
        rw [hcount] at hc ⊢
        have hpos : 0 < List.count u known := List.count_pos_iff.mpr hu
        omega
      · simp only [log_user, hp, if_neg hu, Except.ok.injEq] at h
        rw [← h]
        have hp2 : parseAllIds (lines ++ [intRepr u]) = some (known ++ [u]) :=
          parseAllIds_append_one (parsePyInt_intRepr u) hp
        refine ⟨?_, ?_, lines ++ [intRepr u], rfl, by simp [user_count_main]⟩
        · simp [log_user, hp2]
        · simp only [countIn, storeIds, linesOf, parseAllIds_filterMap hp2]
          rw [List.count_append]
          have hzero : List.count u known = 0 := List.count_eq_zero.mpr hu
          simp [hzero]

/-- C3 witness: identity 5 recorded into an empty store, then recorded again. -/
theorem C3_log_user_idempotent_witness :
    log_user 5 (some []) = .ok (some [intRepr 5]) ∧ countIn 5 (some []) ≤ 1 ∧
    (log_user 5 (some [intRepr 5]) = .ok (some [intRepr 5]) ∧
      countIn 5 (some [intRepr 5]) = 1 ∧
      ∃ lines1, (some [intRepr 5] : Store) = some lines1 ∧
        (user_count_main 9 9 (some [intRepr 5])).fst =
          some (.text (countMsg lines1.length))) := by
  have h1 : log_user 5 (some []) = .ok (some [intRepr 5]) := by
    simp [log_user, parseAllIds]
  have h2 : countIn 5 (some ([] : List Str)) ≤ 1 := by
    simp [countIn, storeIds, linesOf]
  exact ⟨h1, h2, C3_log_user_idempotent 5 9 (some []) (some [intRepr 5]) h1 h2⟩

/- ## Claim C10 — webhook variant defaults the admin identity to 0 -/

/-- C10: when the admin-identity environment variable is absent or not a valid
integer, the webhook variant keeps running with admin identity 0, and a
requester with identity 0 passes the equality check of user_count and receives
the admin reply. -/
theorem C10_webhook_admin_zero (admEnv tokEnv : Option Str)
    (h : admEnv = none ∨ ∃ s, admEnv = some s ∧ parsePyInt s = none) :
    webhookAdminId admEnv = 0 ∧
    (∃ b, webBoot tokEnv admEnv = .running b 0) ∧
    user_count_index 0 (webhookAdminId admEnv) = some (.text vercelMsg) := by
  have hz : webhookAdminId admEnv = 0 := by
    rcases h with h | ⟨s, rfl, hs⟩
    · rw [h]; rfl
    · show (if s.isEmpty then 0 else (parsePyInt s).getD 0) = 0
      by_cases he : s.isEmpty
      · rw [if_pos he]
      · rw [if_neg he, hs]; rfl
  refine ⟨hz, ⟨pyFalsy tokEnv || pyFalsy admEnv, by unfold webBoot; rw [hz]⟩, ?_⟩
  rw [hz]
  simp [user_count_index]

/-- C10 witness: a non-numeric admin-identity environment value. -/
theorem C10_webhook_admin_zero_witness :
    webhookAdminId (some "abc".data) = 0 ∧
    (∃ b, webBoot none (some "abc".data) = .running b 0) ∧
    user_count_index 0 (webhookAdminId (some "abc".data)) =
      some (.text vercelMsg) := by
  exact C10_webhook_admin_zero (some "abc".data) none
    (Or.inr ⟨"abc".data, rfl, by decide⟩)

/- ## Claim C6 — admin gating of the users command -/

/-- C6 counterexample: with the store file absent (stored count 0), the admin
reply of the polling variant is the fixed text "No users have been recorded
yet.", which does not contain the stored count; the claim requires a text
response containing the stored count for every admin invocation. -/
theorem C6_count_text_cex :
    (user_count_main 7 7 none).fst = some (.text noUsersMsg) ∧
    ¬ (natRepr 0 <:+: noUsersMsg) := by
  constructor
  · rfl
  · intro h
    have h0 : ('0' : Char) ∈ noUsersMsg := by
      refine List.IsInfix.subset ?_ (by decide : ('0' : Char) ∈ natRepr 0)
      exact h
    exact absurd h0 (by decide)

/-- C6 (amended): a non-admin requester receives no reply at all from the
users command in either variant; the admin receives a text reply containing
the stored line count when the store file exists, the fixed
"No users have been recorded yet." text when it is absent, and in the webhook
variant a fixed notice that counting is disabled. -/
theorem C6_admin_gating (uid adm : Int) (st : Store) (lines : List Str)
    (hne : uid ≠ adm) :
    ((user_count_main uid adm st).fst = none ∧ user_count_index uid adm = none) ∧
    ((user_count_main adm adm (some lines)).fst =
        some (.text (countMsg lines.length)) ∧
      natRepr lines.length <:+: countMsg lines.length) ∧
    (user_count_main adm adm none).fst = some (.text noUsersMsg) ∧
    user_count_index adm adm = some (.text vercelMsg) := by
  refine ⟨⟨?_, ?_⟩, ⟨?_, ?_⟩, ?_, ?_⟩
  · simp [user_count_main, hne]
  · simp [user_count_index, hne]
  · simp [user_count_main]
  · exact List.IsSuffix.isInfix (List.suffix_append "Total unique users: ".data
      (natRepr lines.length))
  · simp [user_count_main]
  · simp [user_count_index]

/-- C6 witness: requester 5 against admin 7, and admin 7 with a one-line
store. -/
theorem C6_admin_gating_witness :
    ((user_count_main 5 7 (some [intRepr 5])).fst = none ∧
      user_count_index 5 7 = none) ∧
    ((user_count_main 7 7 (some [intRepr 5])).fst =
        some (.text (countMsg [intRepr 5].length)) ∧
      natRepr [intRepr 5].length <:+: countMsg [intRepr 5].length) ∧
    (user_count_main 7 7 none).fst = some (.text noUsersMsg) ∧
    user_count_index 7 7 = some (.text vercelMsg) :=
  C6_admin_gating 5 7 (some [intRepr 5]) [intRepr 5] (by decide)

/- ## Claim C7 — identity recording before acting -/

/-- C7 counterexample: the users command handler of the polling variant never
records the requester identity: the admin (identity 7) invokes it on an empty
store, gets the reply, and the store still does not contain identity 7. -/
theorem C7_users_no_record_cex :
    (user_count_main 7 7 none).fst = some (.text noUsersMsg) ∧
    (user_count_main 7 7 none).snd = none ∧
    (7 : Int) ∉ storeIds none := by
  refine ⟨rfl, rfl, ?_⟩
  simp [storeIds, linesOf]

/-- C7 (amended): in the polling variant the start handler and the content
handler record the requester identity (via log_user, invoked before the reply
is produced) in the store state they return, but the users command handler
leaves the store untouched; the webhook variant records no identities at all. -/
theorem C7_identity_recording (uid : Int) (st : Store) (text : Str) (fs : Fs)
    (unr : Str → Bool) (r : Nat) :
    (∀ resp st1, start_main uid st = .ok (resp, st1) → uid ∈ storeIds st1) ∧
    (∀ resp st1, send_problem_main text uid st fs unr r = .ok (resp, st1) →
      uid ∈ storeIds st1) ∧
    (∀ adm, (user_count_main uid adm st).snd = st) := by
  refine ⟨?_, ?_, fun adm => rfl⟩
  · intro resp st1 h
    cases hl : log_user uid st with
    | error e => simp [start_main, hl] at h
    | ok st2 =>
      simp only [start_main, hl, Except.ok.injEq, Prod.mk.injEq] at h
      rw [← h.2]
      exact log_user_mem hl
  · intro resp st1 h
    cases hl : log_user uid st with
    | error e => simp [send_problem_main, hl] at h
    | ok st2 =>
      simp only [send_problem_main, hl, Except.ok.injEq, Prod.mk.injEq] at h
      rw [← h.2]
      exact log_user_mem hl

/-- C7 witness: identity 42 sending /rmo into an empty store. -/
theorem C7_identity_recording_witness :
    (42 : Int) ∈ storeIds (some [intRepr 42]) := by
  have h : send_problem_main "/rmo".data 42 (some []) (fun _ => none)
      (fun _ => false) 0 =
      .ok (sendProblemTryM (deriveToken "/rmo".data) (fun _ => none)
        (fun _ => false) 0, some [intRepr 42]) := by
    simp [send_problem_main, log_user, parseAllIds]
  exact ((C7_identity_recording 42 (some []) "/rmo".data (fun _ => none)
    (fun _ => false) 0).2.1) _ _ h

/- ## Claim C8 — startup configuration handling -/

/-- C8 counterexample: the webhook variant with both environment variables
absent logs the critical message but keeps running with admin identity 0
instead of terminating. -/
theorem C8_webhook_no_exit_cex :
    webBoot none none = .running true 0 ∧
    (WebBoot.running true 0 : WebBoot) ≠ .terminated := by
  constructor
  · rfl
  · decide

/-- C8 (amended): the polling variant fails fast — a missing environment
variable leads to the logged exit, a present but malformed admin identity to
an uncaught-exception crash, and well-formed configuration to a running
process; the webhook variant never terminates: it always finishes startup in
the running state, and a falsy admin variable leaves the admin identity 0. -/
theorem C8_startup_handling (tokEnv admEnv : Option Str) (t a : Str) (n : Int) :
    mainBoot none admEnv = .exited ∧
    mainBoot tokEnv none = .exited ∧
    (parsePyInt a = none → mainBoot (some t) (some a) = .crashed) ∧
    (parsePyInt a = some n → mainBoot (some t) (some a) = .running n) ∧
    (∃ b m, webBoot tokEnv admEnv = .running b m) ∧
    (pyFalsy admEnv = true → webhookAdminId admEnv = 0) := by
  refine ⟨rfl, ?_, ?_, ?_, ⟨_, _, rfl⟩, ?_⟩
  · cases tokEnv <;> rfl
  · intro h
    simp [mainBoot, h]
  · intro h
    simp [mainBoot, h]
  · intro h
    cases admEnv with
    | none => rfl
    | some s =>
      simp only [pyFalsy] at h
      simp [webhookAdminId, h]

/-- C8 witness: concrete environments for each startup outcome. -/
theorem C8_startup_handling_witness :
    mainBoot none (some "7".data) = .exited ∧
    mainBoot (some "T".data) none = .exited ∧
    mainBoot (some "T".data) (some "x7".data) = .crashed ∧
    mainBoot (some "T".data) (some "7".data) = .running 7 ∧
    (∃ b m, webBoot (some "T".data) (some []) = .running b m) ∧
    webhookAdminId (some []) = 0 := by
  have h := C8_startup_handling (some "T".data) (some ([] : Str)) "T".data
    "x7".data 7
  have h2 := C8_startup_handling (some "T".data) (some ([] : Str)) "T".data
    "7".data 7
  exact ⟨h.1, h.2.1, h.2.2.1 (by decide), h2.2.2.2.1 (by decide),
    h.2.2.2.2.1, h.2.2.2.2.2 (by decide)⟩

/- ## Claim C2 — concurrent identity recording -/

/-- C2 counterexample: two concurrent log_user calls for the same identity 5
(N = 2, M = 1 distinct identity), interleaved read-read-write-write on an
empty store, both pass the membership test against the empty snapshot and both
append: the completed run leaves 2 entries instead of M = 1.  The read-modify-
write of log_user is not serialized. -/
theorem C2_interleaving_cex :
    allDone (runSched [0, 1, 0, 1] ⟨some [], initThreads [5, 5]⟩) = true ∧
    (runSched [0, 1, 0, 1] ⟨some [], initThreads [5, 5]⟩).store = some [5, 5] ∧
    ([5, 5] : List Int).toFinset.card = 1 ∧
    (machineEntries (runSched [0, 1, 0, 1] ⟨some [], initThreads [5, 5]⟩)).length ≠ 1 := by
  refine ⟨?_, ?_, ?_, ?_⟩ <;> decide

/-- C2 (amended): when the log_user calls are serialized (each call runs to
completion before the next starts, as under the polling variant's sequential
update processing), N invocations carrying M distinct identities leave the
store with exactly M entries: no identity is lost and none is duplicated.
Under arbitrary interleavings of the unsynchronized read and write steps this
fails (see the counterexample). -/
theorem C2_serialized_inserts (ids : List Int) :
    ∃ lines2, seqLog ids (some []) = .ok (some lines2) ∧
      (lines2.filterMap parsePyInt).Nodup ∧
      (∀ v, v ∈ lines2.filterMap parsePyInt ↔ v ∈ ids) ∧
      lines2.length = ids.toFinset.card := by
  obtain ⟨lines2, ks2, hrun, hp2, hnd2, hmem, hlen⟩ :=
    seqLog_ok ids [] [] rfl List.nodup_nil
  refine ⟨lines2, hrun, ?_, ?_, ?_⟩
  · rw [parseAllIds_filterMap hp2]
    exact hnd2
  · intro v
    rw [parseAllIds_filterMap hp2, hmem v]
    simp
  · rw [hlen]
    have hfin : ks2.toFinset = ids.toFinset := by
      ext v
      simp only [List.mem_toFinset]
      rw [hmem v]
      simp
    rw [← List.toFinset_card_of_nodup hnd2, hfin]

/- ## Claim C4 — exception containment in the dispatch path -/

/-- C4 counterexample: with users.txt containing the non-numeric line "abc",
the identity-store read inside the polling variant's send_problem raises a
ValueError before the try block, and the exception propagates out of the
handler; no response is attempted. -/
theorem C4_store_error_propagates_cex :
    send_problem_main "/rmo".data 42 (some ["abc".data]) (fun _ => none)
      (fun _ => false) 0 = .error .valueError := by
  rfl

/-- C4 (amended): in the polling variant, the only exceptions that escape
send_problem are those raised by the identity-store read performed before the
try block; when the store read succeeds a response is always produced, and an
unreadable selected artifact is caught inside the try and converted to the
generic error text. -/
theorem C4_error_containment (text : Str) (uid : Int) (st : Store) (fs : Fs)
    (unr : Str → Bool) (r : Nat) :
    (∀ e, send_problem_main text uid st fs unr r = .error e →
      log_user uid st = .error e) ∧
    (∀ st1, log_user uid st = .ok st1 →
      send_problem_main text uid st fs unr r =
        .ok (sendProblemTryM (deriveToken text) fs unr r, st1)) ∧
    (∀ tok es, fs tok = some es → visibleOf es ≠ [] →
      unr (probPath tok (random_choice (visibleOf es) r)) = true →
      sendProblemTryM tok fs unr r = .text genericErrM) := by
  refine ⟨?_, ?_, ?_⟩
  · intro e h
    cases hl : log_user uid st with
    | error e2 =>
      unfold send_problem_main at h
      rw [hl] at h
    | ok st2 => simp [send_problem_main, hl] at h
  · intro st1 hl
    simp [send_problem_main, hl]
  · intro tok es hes hne hunr
    simp only [sendProblemTryM, hes]
    rw [if_neg hne, if_pos hunr]

/-- C4 witness: a successful store read yields the try-body response, and an
unreadable artifact yields the generic error text. -/
theorem C4_error_containment_witness :
    send_problem_main "/rmo".data 42 (some []) (fun _ => none)
      (fun _ => false) 0 =
      .ok (sendProblemTryM (deriveToken "/rmo".data) (fun _ => none)
        (fun _ => false) 0, some [intRepr 42]) ∧
    sendProblemTryM "rmo".data (fun _ => some ["p1.png".data])
      (fun _ => true) 0 = .text genericErrM := by
  constructor
  · exact (C4_error_containment "/rmo".data 42 (some []) (fun _ => none)
      (fun _ => false) 0).2.1 (some [intRepr 42])
      (by simp [log_user, parseAllIds])
  · exact (C4_error_containment "/rmo".data 42 (some [])
      (fun _ => some ["p1.png".data]) (fun _ => true) 0).2.2 "rmo".data
      ["p1.png".data] rfl (by decide) (by decide)

/- ## Claim C5 — category resolution trichotomy -/

/-- C5: for every content-category token, resolution yields exactly one of
three outcomes: directory absent ↦ a text naming the missing category and no
artifact; directory present with zero visible entries (hidden-marker-prefixed
entries excluded) ↦ a distinct no-problems text; otherwise the non-empty list
of precisely the directory's visible entries. -/
theorem C5_category_trichotomy (fs : Fs) (tok : Str) (unr : Str → Bool)
    (r : Nat) :
    (fs tok = none → resolveCategory fs tok = .missing ∧
      sendProblemTryM tok fs unr r = .text (missingMsgM tok) ∧
      sendProblemTryIdx tok fs unr r = .text (setupErrIdx tok)) ∧
    (∀ es, fs tok = some es → visibleOf es = [] →
      resolveCategory fs tok = .empty ∧
      sendProblemTryM tok fs unr r = .text (emptyMsgM tok) ∧
      sendProblemTryIdx tok fs unr r = .text (emptyMsgIdx tok) ∧
      emptyMsgM tok ≠ missingMsgM tok) ∧
    (∀ es, fs tok = some es → visibleOf es ≠ [] →
      resolveCategory fs tok = .ready (visibleOf es) ∧ visibleOf es ≠ []) := by
  have hdist : emptyMsgM tok ≠ missingMsgM tok := by
    unfold emptyMsgM missingMsgM
    exact @append_ne_append_of_take 8 "Sorry, the problem set for ".data
      "Sorry, I couldn".data _ _ (by decide) (by decide) (by decide)
  refine ⟨?_, ?_, ?_⟩
  · intro h
    refine ⟨?_, ?_, ?_⟩ <;>
      simp [resolveCategory, sendProblemTryM, sendProblemTryIdx, h]
  · intro es h hv
    refine ⟨?_, ?_, ?_, hdist⟩ <;>
      simp [resolveCategory, sendProblemTryM, sendProblemTryIdx, h, hv]
  · intro es h hv
    refine ⟨?_, hv⟩
    simp [resolveCategory, h, hv]

/-- C5 witness: a catalog where rmo has one visible and one hidden entry,
probed for the missing, empty, and ready branches. -/
theorem C5_category_trichotomy_witness :
    resolveCategory
      (fun t => if t = "rmo".data then some ["a.png".data, ".hidden".data]
        else none) "xxx".data = .missing ∧
    (resolveCategory (fun _ => some [".hidden".data]) "rmo".data = .empty ∧
      emptyMsgM "rmo".data ≠ missingMsgM "rmo".data) ∧
    resolveCategory
      (fun t => if t = "rmo".data then some ["a.png".data, ".hidden".data]
        else none) "rmo".data = .ready (visibleOf ["a.png".data, ".hidden".data]) := by
  refine ⟨?_, ⟨?_, ?_⟩, ?_⟩
  · exact ((C5_category_trichotomy _ "xxx".data (fun _ => false) 0).1
      (by decide)).1
  · exact ((C5_category_trichotomy (fun _ => some [".hidden".data]) "rmo".data
      (fun _ => false) 0).2.1 [".hidden".data] rfl (by decide)).1
  · exact ((C5_category_trichotomy (fun _ => some [".hidden".data]) "rmo".data
      (fun _ => false) 0).2.1 [".hidden".data] rfl (by decide)).2.2.2
  · exact ((C5_category_trichotomy _ "rmo".data (fun _ => false) 0).2.2
      ["a.png".data, ".hidden".data] (by decide) (by decide)).1

/- ## Claim C9 — selection stays within the visible entries -/

/-- C9: whenever send_problem (either variant) delivers a photo, the selected
path is built from a member of the category's visible entries; the random
selector is only reached after the missing and empty cases returned, so it is
only ever invoked on a non-empty list. -/
theorem C9_selection_member (tok : Str) (fs : Fs) (unr : Str → Bool) (r : Nat)
    (p c : Str) :
    (sendProblemTryM tok fs unr r = .photo p c →
      ∃ es f, fs tok = some es ∧ f ∈ visibleOf es ∧ p = probPath tok f) ∧
    (sendProblemTryIdx tok fs unr r = .photo p c →
      ∃ es f, fs tok = some es ∧ f ∈ visibleOf es ∧ p = probPath tok f) := by
  refine ⟨?_, ?_⟩ <;> intro h
  · cases hes : fs tok with
    | none => simp [sendProblemTryM, hes] at h
    | some es =>
      by_cases hv : visibleOf es = []
      · simp [sendProblemTryM, hes, hv] at h
      · simp only [sendProblemTryM, hes] at h
        rw [if_neg hv] at h
        by_cases hu : unr (probPath tok (random_choice (visibleOf es) r)) = true
        · rw [if_pos hu] at h
          exact absurd h (by simp)
        · rw [if_neg hu] at h
          injection h with h1 h2
          exact ⟨es, random_choice (visibleOf es) r, rfl,
            random_choice_mem hv r, h1.symm⟩
  · cases hes : fs tok with
    | none => simp [sendProblemTryIdx, hes] at h
    | some es =>
      by_cases hv : visibleOf es = []
      · simp [sendProblemTryIdx, hes, hv] at h
      · simp only [sendProblemTryIdx, hes] at h
        rw [if_neg hv] at h
        by_cases hu : unr (probPath tok (random_choice (visibleOf es) r)) = true
        · rw [if_pos hu] at h
          exact absurd h (by simp)
        · rw [if_neg hu] at h
          injection h with h1 h2
          exact ⟨es, random_choice (visibleOf es) r, rfl,
            random_choice_mem hv r, h1.symm⟩

/-- C9 witness: the single-entry rmo category delivers that entry. -/
theorem C9_selection_member_witness :
    ∃ es f, (fun _ => some ["p1.png".data] : Fs) "rmo".data = some es ∧
      f ∈ visibleOf es ∧
      probPath "rmo".data "p1.png".data = probPath "rmo".data f :=
  (C9_selection_member "rmo".data (fun _ => some ["p1.png".data])
    (fun _ => false) 0 (probPath "rmo".data "p1.png".data)
    (captionM "rmo".data)).1 (by decide)
